import Mathlib

/-!
Shallow embedding of the generation pipeline of `on-this-day-in-history`.

The repository contains three near-duplicate scripts:
* variant P ("per-day file"): first script in `generate-events.js` (lines 1-312);
* variant G ("aggregate `events.json`"): second script in `generate-events.js`
  (lines 312-616);
* variant S ("scheduler"): `src/unnamed/part_000`.

Variants P and S share `parseEvents`/`validateEvents` verbatim, so one Lean
definition embeds both; variant G has its own parser and validator, embedded
as `parseEventsAgg`/`validateEventsAgg`.
-/

set_option maxRecDepth 4096

namespace OnThisDay

/-- The supported languages: `LANGUAGES = ['zh', 'en']` in every variant. -/
inductive Lang where
  | zh
  | en
deriving DecidableEq, Repr

/-- The list `LANGUAGES = ['zh', 'en']`. -/
def LANGUAGES : List Lang := [Lang.zh, Lang.en]

/-- The table `CATEGORIES`: the per-language category vocabulary (identical in all
three variants). -/
def CATEGORIES : Lang → List String
  | Lang.zh => ["政治", "经济", "科技", "文化", "体育", "灾害", "其他"]
  | Lang.en => ["Politics", "Economy", "Technology", "Culture", "Sports", "Disaster", "Other"]

/-- The fallback category written by `validateEvents` (variants P and S):
`event.category = lang === 'zh' ? '其他' : 'Other'`. -/
def fallbackCategory (lang : Lang) : String :=
  if lang = Lang.zh then "其他" else "Other"

/-- An event record as produced by the parsers:
`{year: parseInt(...), title: ..., category: ...}`.
`year = none` models JavaScript `NaN` (the result of `parseInt` on a
non-numeric string); every numeric comparison against `NaN` is false, which
the embedding reproduces by matching on the option. -/
structure Event where
  year : Option Int
  title : String
  category : String
deriving DecidableEq, Repr

/-- Drop leading whitespace characters from a character list. -/
def dropLeadingWs : List Char → List Char
  | [] => []
  | c :: cs => if c.isWhitespace then dropLeadingWs cs else c :: cs

/-- JavaScript `String.prototype.trim()`: strip whitespace from both ends.
Implemented over the character list so that it evaluates by kernel
reduction. -/
def jsTrim (s : String) : String :=
  String.mk ((dropLeadingWs ((dropLeadingWs s.data).reverse)).reverse)

/-- Split a character list on a separator character; always returns at least
one (possibly empty) segment, like JavaScript `split`. -/
def splitOnChar (sep : Char) : List Char → List (List Char)
  | [] => [[]]
  | c :: cs =>
    let rest := splitOnChar sep cs
    if c = sep then [] :: rest
    else
      match rest with
      | [] => [[c]]
      | r :: rs => (c :: r) :: rs

/-- JavaScript `s.split(sep)` for a one-character separator (the code only
splits on `'\n'` and `'|'`). -/
def jsSplit (s : String) (sep : Char) : List String :=
  (splitOnChar sep s.data).map String.mk

/-- Accumulate the leading decimal digits of a character list, stopping at
the first non-digit, as JavaScript `parseInt` does after the sign. -/
def jsDigits : List Char → Nat → Nat
  | [], acc => acc
  | c :: cs, acc => if c.isDigit then jsDigits cs (acc * 10 + (c.toNat - 48)) else acc

/-- JavaScript `parseInt(s, 10)`: skip surrounding whitespace, read an
optional sign and then the longest digit prefix; yield `NaN` (here `none`)
when no digit is found. -/
def jsParseInt (s : String) : Option Int :=
  match (jsTrim s).data with
  | [] => none
  | '-' :: rest =>
    match rest with
    | c :: _ => if c.isDigit then some (-(jsDigits rest 0 : Int)) else none
    | [] => none
  | '+' :: rest =>
    match rest with
    | c :: _ => if c.isDigit then some (jsDigits rest 0 : Int) else none
    | [] => none
  | c :: cs => if c.isDigit then some (jsDigits (c :: cs) 0 : Int) else none

/-- One iteration of the `lines.forEach` body of `parseEvents`
(variants P and S, `generate-events.js` lines 207-222): blank lines and
lines that do not split on `'|'` into exactly three parts are skipped
(`return`), otherwise the trimmed parts become an event record. -/
def parseLine (line : String) : Option Event :=
  let trimmedLine := jsTrim line
  if trimmedLine = "" then none
  else
    match jsSplit trimmedLine '|' with
    | [p0, p1, p2] =>
      some { year := jsParseInt (jsTrim p0), title := jsTrim p1, category := jsTrim p2 }
    | _ => none

/-- The function `parseEvents` (variants P and S): fold the per-line body over
`aiResponse.split('\n')`, pushing each accepted record. -/
def parseEvents (aiResponse : String) : List Event :=
  (jsSplit aiResponse '\n').foldl (fun events line => events ++ (parseLine line).toList) []

/-- One iteration of the `for` body of variant G's `parseEvents`
(`generate-events.js` lines 465-474):
`const [year, description, category] = line.split('|').map(item => item.trim());
if (year && description && category) push`. A missing field (destructuring
past the end) is `undefined`, modelled by `none`; an empty string is falsy.
Extra fields beyond the third are ignored, not a reason to skip. -/
def parseLineAgg (line : String) : Option Event :=
  let items := (jsSplit line '|').map jsTrim
  match items.get? 0, items.get? 1, items.get? 2 with
  | some y, some d, some c =>
    if y ≠ "" ∧ d ≠ "" ∧ c ≠ "" then
      some { year := jsParseInt y, title := d, category := c }
    else none
  | _, _, _ => none

/-- Variant G's `parseEvents`: `text.split('\n').filter(line => line.trim())`
then the per-line body over the non-blank lines. -/
def parseEventsAgg (text : String) : List Event :=
  ((jsSplit text '\n').filter (fun line => jsTrim line ≠ "")).foldl
    (fun events line => events ++ (parseLineAgg line).toList) []

/-- One iteration of the `events.forEach` body of `validateEvents`
(variants P and S, `generate-events.js` lines 233-253): drop on invalid or
`NaN` year, repair an out-of-vocabulary category to the fallback, drop on
empty or whitespace-only title (`!event.title || event.title.trim() === ''`),
otherwise keep. -/
def validateRecord (currentYear : Int) (lang : Lang) (event : Event) : Option Event :=
  match event.year with
  | none => none
  | some y =>
    if y < currentYear - 50 ∨ y > currentYear then none
    else
      let event' :=
        if (CATEGORIES lang).contains event.category then event
        else { event with category := fallbackCategory lang }
      if event'.title = "" ∨ jsTrim event'.title = "" then none
      else some event'

/-- The function `validateEvents` (variants P and S): fold the per-record body over the
input, pushing each kept (possibly category-repaired) record onto
`validEvents`. `currentYear` is the global `year` (variant P) or
`new Date().getFullYear()` (variant S), passed explicitly here. -/
def validateEvents (currentYear : Int) (lang : Lang) (events : List Event) : List Event :=
  events.foldl (fun validEvents event =>
    validEvents ++ (validateRecord currentYear lang event).toList) []

/-- The category repair applied (or not) by `validateEvents` to a single
record, independent of the keep/drop decision. -/
def sanitizeCategory (lang : Lang) (event : Event) : Event :=
  if (CATEGORIES lang).contains event.category then event
  else { event with category := fallbackCategory lang }

/-- Variant G's `validateEvents` (`generate-events.js` lines 480-487):
`events.filter(event => isValidYear && isValidCategory)` with
`isValidYear = event.year >= 1970 && event.year <= currentYear` and
`isValidCategory = validCategories.includes(event.category)`.
A record with an out-of-vocabulary category is dropped here, not repaired. -/
def validateEventsAgg (currentYear : Int) (lang : Lang) (events : List Event) : List Event :=
  events.filter (fun event =>
    (match event.year with
     | none => false
     | some y => decide (1970 ≤ y) && decide (y ≤ currentYear))
    && (CATEGORIES lang).contains event.category)

/-- The function `isCacheValid` (variants P and S, `generate-events.js` lines 74-86 /
`part_000` lines 108-120): false when the cache file does not exist,
otherwise true iff `daysDiff = (now - mtime) / (1000*60*60*24) < 30` where
the timestamps are in milliseconds. The exact rational division mirrors the
JavaScript floating-point division. -/
def isCacheValid (cacheFileExists : Bool) (nowMs mtimeMs : Int) : Bool :=
  if !cacheFileExists then false
  else
    let daysDiff : ℚ := ((nowMs : ℚ) - (mtimeMs : ℚ)) / (1000 * 60 * 60 * 24)
    decide (daysDiff < 30)

/-- The process-wide credential state: the immutable `apiKeys` array and the
mutable `currentKeyIndex`, grouped into one value for the embedding. -/
structure Rotator where
  apiKeys : List String
  currentKeyIndex : Nat
deriving DecidableEq, Repr

/-- The function `switchToNextApiKey`: `currentKeyIndex = (currentKeyIndex + 1) % apiKeys.length`.
`apiKeys` itself is never touched. -/
def switchToNextApiKey (r : Rotator) : Rotator :=
  { r with currentKeyIndex := (r.currentKeyIndex + 1) % r.apiKeys.length }

/-- The credential read by `getGeminiClient`: `apiKeys[currentKeyIndex]`
(JavaScript indexing past the end yields `undefined`, hence the option). -/
def getGeminiClientKey (r : Rotator) : Option String :=
  r.apiKeys.get? r.currentKeyIndex

/-- The outcome of one generation attempt, as seen by the `try`/`catch` in
`generateEventsWithAI`: either non-empty raw text, or any of the failure
modes (transport error, timeout, empty response) that land in the `catch`. -/
inductive AttemptOutcome where
  | ok (text : String)
  | err
deriving DecidableEq, Repr

/-- The `while (retries < maxRetries && !success)` loop of
`generateEventsWithAI`, for one language. `oracle retries keyIdx` is the
outcome of the attempt numbered `retries` (0-based) made with credential
index `keyIdx`; `fuel = maxRetries - retries` is the remaining budget.
On success the loop stops and returns the raw text together with the total
attempt count and the final key index; after a failure it increments
`retries`, and either rotates the key and loops (`retries < maxRetries`)
or throws `所有API密钥均无法生成内容` — modelled as `Except.error` carrying the
total attempt count. The `fuel = 0` base case is the guard-false entry,
unreachable whenever the loop is started with `maxRetries > 0`. -/
def genLoop (oracle : Nat → Nat → AttemptOutcome) (numKeys : Nat) :
    Nat → Nat → Nat → Except Nat (String × Nat × Nat)
  | _retries, _keyIdx, 0 => Except.error 0
  | retries, keyIdx, fuel + 1 =>
    match oracle retries keyIdx with
    | AttemptOutcome.ok t => Except.ok (t, retries + 1, keyIdx)
    | AttemptOutcome.err =>
      if fuel = 0 then Except.error (retries + 1)
      else genLoop oracle numKeys (retries + 1) ((keyIdx + 1) % numKeys) fuel

/-- The per-language retry orchestration of `generateEventsWithAI`, starting
from `retries = 0` and the current key index. `maxRetries` is
`apiKeys.length * 2` in variants P and G and `apiKeys.length * CONFIG.maxRetries
= apiKeys.length * 3` in variant S. -/
def generateEventsForLang (oracle : Nat → Nat → AttemptOutcome)
    (numKeys maxRetries keyIdx : Nat) : Except Nat (String × Nat × Nat) :=
  genLoop oracle numKeys 0 keyIdx maxRetries

/-- The `for (const lang of LANGUAGES)` loop of `generateEventsWithAI`: languages
are processed sequentially, each starting from whatever key index the
previous language's last attempt left behind; a per-language exhaustion
propagates (the `throw` aborts the whole function). Returns the raw text per
language and the final key index. -/
def generateEventsWithAI (oracle : Lang → Nat → Nat → AttemptOutcome)
    (numKeys maxRetries : Nat) :
    List Lang → Nat → Except Nat (List (Lang × String) × Nat)
  | [], keyIdx => Except.ok ([], keyIdx)
  | lang :: rest, keyIdx =>
    match generateEventsForLang (oracle lang) numKeys maxRetries keyIdx with
    | Except.error a => Except.error a
    | Except.ok (t, _, keyIdx') =>
      match generateEventsWithAI oracle numKeys maxRetries rest keyIdx' with
      | Except.error a => Except.error a
      | Except.ok (results, keyIdx'') => Except.ok ((lang, t) :: results, keyIdx'')

/-- The startup computation `apiKeys = [GEMINI_API_KEY_1, GEMINI_API_KEY_2].filter(Boolean)`:
an unset variable (`undefined`, here `none`) and an empty string are both
falsy and removed. -/
def getApiKeys (env1 env2 : Option String) : List String :=
  ([env1, env2].filterMap id).filter (fun s => s ≠ "")

/-- A per-date event bundle: language → validated event list. -/
abbrev Bundle := List (Lang × List Event)

/-- The startup guard followed by the rest of the script: if
`apiKeys.length === 0` the process exits fatally
(`console.error('错误: 未配置有效的Gemini API密钥'); process.exit(1)`) before any
generation runs; otherwise the generation pipeline (abstracted as
`generate`) runs with the configured keys. -/
def runProcess (env1 env2 : Option String) (generate : List String → Bundle) :
    Except String Bundle :=
  let apiKeys := getApiKeys env1 env2
  if apiKeys.length = 0 then Except.error "错误: 未配置有效的Gemini API密钥"
  else Except.ok (generate apiKeys)

/-- JavaScript object property assignment `obj[key] = value` on an object
modelled as an insertion-ordered association list: overwrite in place when
the key exists, append otherwise. -/
def jsObjectSet (obj : List (String × Bundle)) (key : String) (value : Bundle) :
    List (String × Bundle) :=
  if obj.any (fun p => p.1 = key) then
    obj.map (fun p => if p.1 = key then (key, value) else p)
  else obj ++ [(key, value)]

/-- JavaScript object property read `obj[key]`. -/
def jsObjectGet (obj : List (String × Bundle)) (key : String) : Option Bundle :=
  (obj.find? (fun p => p.1 = key)).map Prod.snd

/-- The `events.json` update performed by variant G's
`generateAndUpdateEvents` on both paths (cache hit, lines 555-567, and
generate, lines 585-594): read the current object, set only `dateStr`,
write it back. -/
def updateEventsFile (allEvents : List (String × Bundle)) (dateStr : String)
    (eventsData : Bundle) : List (String × Bundle) :=
  jsObjectSet allEvents dateStr eventsData

/-! ### Helper lemmas -/

theorem foldl_push_filterMap {α β : Type} (f : α → Option β) :
    ∀ (l : List α) (acc : List β),
      l.foldl (fun acc a => acc ++ (f a).toList) acc = acc ++ l.filterMap f
  | [], acc => by simp
  | a :: l, acc => by
    rw [List.foldl_cons, foldl_push_filterMap f l]
    cases h : f a <;> simp [List.filterMap_cons, h]

theorem validateEvents_eq_filterMap (currentYear : Int) (lang : Lang) (events : List Event) :
    validateEvents currentYear lang events = events.filterMap (validateRecord currentYear lang) := by
  unfold validateEvents
  rw [foldl_push_filterMap]
  simp

theorem validateRecord_some {currentYear : Int} {lang : Lang} {e e' : Event}
    (h : validateRecord currentYear lang e = some e') :
    e' = sanitizeCategory lang e := by
  unfold validateRecord at h
  unfold sanitizeCategory
  cases hy : e.year with
  | none => rw [hy] at h; cases h
  | some y =>
    rw [hy] at h
    simp only at h
    by_cases h1 : y < currentYear - 50 ∨ y > currentYear
    · rw [if_pos h1] at h; cases h
    · rw [if_neg h1] at h
      cases h2 : (CATEGORIES lang).contains e.category with
      | true =>
        simp only [h2, if_true] at h ⊢
        by_cases h3 : e.title = "" ∨ jsTrim e.title = ""
        · rw [if_pos h3] at h; cases h
        · rw [if_neg h3] at h; exact (Option.some.inj h).symm
      | false =>
        simp only [h2, Bool.false_eq_true, if_false] at h ⊢
        by_cases h3 : ({ e with category := fallbackCategory lang } : Event).title = ""
            ∨ jsTrim ({ e with category := fallbackCategory lang } : Event).title = ""
        · rw [if_pos h3] at h; cases h
        · rw [if_neg h3] at h; exact (Option.some.inj h).symm

theorem validateEvents_sublist (currentYear : Int) (lang : Lang) (events : List Event) :
    List.Sublist (validateEvents currentYear lang events)
      (events.map (sanitizeCategory lang)) := by
  rw [validateEvents_eq_filterMap]
  induction events with
  | nil => simp
  | cons e l ih =>
    rw [List.map_cons]
    cases h : validateRecord currentYear lang e with
    | none =>
      rw [List.filterMap_cons_none h]
      exact ih.cons _
    | some e' =>
      rw [List.filterMap_cons_some h, validateRecord_some h]
      exact ih.cons₂ _

/-! ### Claim theorems -/

/-- Claim C7: `validateEvents` (variants P and S) is a pure function of the
input sequence, the language and the current year; it equals a per-record
`filterMap`, and its output is a sublist of the category-sanitized input,
hence preserves the input's relative order. -/
theorem validator_pure_order_preserving (currentYear : Int) (lang : Lang)
    (events : List Event) :
    validateEvents currentYear lang events = events.filterMap (validateRecord currentYear lang)
    ∧ List.Sublist (validateEvents currentYear lang events)
        (events.map (sanitizeCategory lang)) :=
  ⟨validateEvents_eq_filterMap currentYear lang events,
   validateEvents_sublist currentYear lang events⟩

/-- Claim C5: `isCacheValid` is true iff the cache entry exists and its
write-timestamp is strictly within 30 days of now; an entry written 31 days
ago is invalid and one written 29 days ago is valid, for any "now". -/
theorem cache_ttl_strict :
    (∀ (ex : Bool) (nowMs mtimeMs : Int),
       isCacheValid ex nowMs mtimeMs = true ↔
         ex = true ∧ ((nowMs : ℚ) - (mtimeMs : ℚ)) < 30 * (1000 * 60 * 60 * 24))
    ∧ (∀ nowMs : Int, isCacheValid true nowMs (nowMs - 31 * 86400000) = false)
    ∧ (∀ nowMs : Int, isCacheValid true nowMs (nowMs - 29 * 86400000) = true) := by
  have key : ∀ (ex : Bool) (nowMs mtimeMs : Int),
      isCacheValid ex nowMs mtimeMs = true ↔
        ex = true ∧ ((nowMs : ℚ) - (mtimeMs : ℚ)) < 30 * (1000 * 60 * 60 * 24) := by
    intro ex nowMs mtimeMs
    cases ex with
    | false => simp [isCacheValid]
    | true =>
      simp only [isCacheValid, Bool.not_true, Bool.false_eq_true, if_false,
        decide_eq_true_eq, true_and]
      rw [div_lt_iff₀ (by norm_num : (0 : ℚ) < 1000 * 60 * 60 * 24)]
  refine ⟨key, fun nowMs => ?_, fun nowMs => ?_⟩
  · rw [Bool.eq_false_iff]
    intro hcontra
    have h := (key true nowMs (nowMs - 31 * 86400000)).mp hcontra
    have h2 := h.2
    push_cast at h2
    linarith
  · rw [key]
    refine ⟨rfl, ?_⟩
    push_cast
    linarith

theorem switchToNextApiKey_apiKeys (r : Rotator) (m : Nat) :
    (switchToNextApiKey^[m] r).apiKeys = r.apiKeys := by
  induction m with
  | zero => rfl
  | succ m ih =>
    rw [Function.iterate_succ_apply', switchToNextApiKey, ih]

theorem switchToNextApiKey_iterate (n : Nat) (hn : 0 < n) :
    ∀ (m : Nat) (r : Rotator), r.apiKeys.length = n → r.currentKeyIndex < n →
      switchToNextApiKey^[m] r =
        { r with currentKeyIndex := (r.currentKeyIndex + m) % n }
  | 0, r, hlen, hidx => by
    simp only [Function.iterate_zero, id_eq, Nat.add_zero]
    rw [Nat.mod_eq_of_lt hidx]
  | m + 1, r, hlen, hidx => by
    rw [Function.iterate_succ_apply]
    have hlen' : (switchToNextApiKey r).apiKeys.length = n := hlen
    have hidx' : (switchToNextApiKey r).currentKeyIndex < n := by
      simp only [switchToNextApiKey, hlen]
      exact Nat.mod_lt _ hn
    rw [switchToNextApiKey_iterate n hn m (switchToNextApiKey r) hlen' hidx']
    show (⟨r.apiKeys, ((r.currentKeyIndex + 1) % r.apiKeys.length + m) % n⟩ : Rotator)
      = ⟨r.apiKeys, (r.currentKeyIndex + (m + 1)) % n⟩
    rw [hlen, Nat.mod_add_mod, Nat.add_assoc, Nat.add_comm 1 m]

/-- Claim C8: the rotator's current credential is `apiKeys[currentKeyIndex]`;
`switchToNextApiKey` never changes the credential set, however often it is
applied; and applying it once per credential (`apiKeys.length` times) returns
the cursor — in fact the whole state — to its starting position. -/
theorem rotator_wraparound :
    (∀ r : Rotator, getGeminiClientKey r = r.apiKeys.get? r.currentKeyIndex)
    ∧ (∀ (r : Rotator) (m : Nat), (switchToNextApiKey^[m] r).apiKeys = r.apiKeys)
    ∧ (∀ r : Rotator, r.currentKeyIndex < r.apiKeys.length →
        switchToNextApiKey^[r.apiKeys.length] r = r) := by
  refine ⟨fun r => rfl, switchToNextApiKey_apiKeys, fun r hidx => ?_⟩
  have hn : 0 < r.apiKeys.length := Nat.lt_of_le_of_lt (Nat.zero_le _) hidx
  rw [switchToNextApiKey_iterate r.apiKeys.length hn r.apiKeys.length r rfl hidx]
  rw [Nat.add_mod_right, Nat.mod_eq_of_lt hidx]

/-- Witness for claim C8 at a concrete two-credential rotator. -/
theorem rotator_wraparound_witness :
    switchToNextApiKey^[(⟨["k1", "k2"], 0⟩ : Rotator).apiKeys.length] (⟨["k1", "k2"], 0⟩ : Rotator)
      = (⟨["k1", "k2"], 0⟩ : Rotator) :=
  rotator_wraparound.2.2 ⟨["k1", "k2"], 0⟩ (by decide)

/-- Claim C6: with an empty credential set the process fails with the fatal
configuration error, and the result does not depend on the generation
pipeline at all — generation is never attempted and nothing is retried. -/
theorem startup_no_credentials (env1 env2 : Option String)
    (h : getApiKeys env1 env2 = []) :
    (∀ generate : List String → Bundle,
       runProcess env1 env2 generate = Except.error "错误: 未配置有效的Gemini API密钥")
    ∧ (∀ g g' : List String → Bundle,
       runProcess env1 env2 g = runProcess env1 env2 g') := by
  constructor
  · intro generate
    simp [runProcess, h]
  · intro g g'
    simp [runProcess, h]

/-- Witness for claim C6: no environment variables set. -/
theorem startup_no_credentials_witness :
    runProcess none none (fun _ => []) = Except.error "错误: 未配置有效的Gemini API密钥" :=
  (startup_no_credentials none none rfl).1 (fun _ => [])

theorem find?_map_set_self (k : String) (v : Bundle) :
    ∀ m : List (String × Bundle), m.any (fun p => p.1 = k) = true →
      (m.map (fun p => if p.1 = k then (k, v) else p)).find? (fun p => p.1 = k)
        = some (k, v)
  | [], h => by cases h
  | p :: m, h => by
    by_cases hp : p.1 = k
    · rw [List.map_cons, if_pos hp]
      rw [List.find?_cons_of_pos _ (by simp)]
    · rw [List.map_cons, if_neg hp]
      rw [List.find?_cons_of_neg _ (by simp [hp])]
      refine find?_map_set_self k v m ?_
      simp only [List.any_cons, Bool.or_eq_true, decide_eq_true_eq, hp, false_or] at h
      simpa using h

theorem find?_map_set_other (k k' : String) (v : Bundle) (hk : k' ≠ k) :
    ∀ m : List (String × Bundle),
      (m.map (fun p => if p.1 = k then (k, v) else p)).find? (fun p => p.1 = k')
        = m.find? (fun p => p.1 = k')
  | [] => rfl
  | p :: m => by
    rw [List.map_cons]
    by_cases hp : p.1 = k
    · rw [if_pos hp]
      rw [List.find?_cons_of_neg _ (by simp [Ne.symm hk]),
          List.find?_cons_of_neg _ (by simp [hp, Ne.symm hk])]
      exact find?_map_set_other k k' v hk m
    · rw [if_neg hp]
      by_cases hp' : p.1 = k'
      · rw [List.find?_cons_of_pos _ (by simp [hp']),
            List.find?_cons_of_pos _ (by simp [hp'])]
      · rw [List.find?_cons_of_neg _ (by simp [hp']),
            List.find?_cons_of_neg _ (by simp [hp'])]
        exact find?_map_set_other k k' v hk m

theorem find?_append_none (k : String) (v : Bundle) :
    ∀ m : List (String × Bundle), m.any (fun p => p.1 = k) = false →
      (m ++ [(k, v)]).find? (fun p => p.1 = k) = some (k, v)
  | [], _ => by simp [List.find?]
  | p :: m, h => by
    simp only [List.any_cons, Bool.or_eq_false_iff, decide_eq_false_iff_not] at h
    rw [List.cons_append, List.find?_cons_of_neg _ (by simp [h.1])]
    exact find?_append_none k v m (by simpa using h.2)

theorem find?_append_other (k k' : String) (v : Bundle) (hk : k' ≠ k)
    (m : List (String × Bundle)) :
    (m ++ [(k, v)]).find? (fun p => p.1 = k') = m.find? (fun p => p.1 = k') := by
  induction m with
  | nil => simp [List.find?, Ne.symm hk]
  | cons p m ih =>
    by_cases hp : p.1 = k'
    · rw [List.cons_append, List.find?_cons_of_pos _ (by simp [hp]),
          List.find?_cons_of_pos _ (by simp [hp])]
    · rw [List.cons_append, List.find?_cons_of_neg _ (by simp [hp]),
          List.find?_cons_of_neg _ (by simp [hp])]
      exact ih

/-- Claim C9: updating `events.json` for day key `d` (as both the cache-hit
and the generate path of variant G's `generateAndUpdateEvents` do) maps `d`
to the new bundle and leaves the bundle of every other day key unchanged. -/
theorem events_file_frame (allEvents : List (String × Bundle)) (d : String) (b : Bundle) :
    jsObjectGet (updateEventsFile allEvents d b) d = some b
    ∧ ∀ k, k ≠ d → jsObjectGet (updateEventsFile allEvents d b) k = jsObjectGet allEvents k := by
  constructor
  · unfold updateEventsFile jsObjectSet jsObjectGet
    by_cases h : allEvents.any (fun p => p.1 = d) = true
    · rw [if_pos (by simpa using h), find?_map_set_self d b allEvents h]
      rfl
    · rw [if_neg (by simpa using h),
          find?_append_none d b allEvents (Bool.eq_false_iff.mpr h)]
      rfl
  · intro k hk
    unfold updateEventsFile jsObjectSet jsObjectGet
    by_cases h : allEvents.any (fun p => p.1 = d) = true
    · rw [if_pos (by simpa using h), find?_map_set_other d k b hk allEvents]
    · rw [if_neg (by simpa using h), find?_append_other d k b hk allEvents]

/-- Witness for claim C9: updating key `01-02` leaves key `01-01` intact. -/
theorem events_file_frame_witness :
    jsObjectGet (updateEventsFile [("01-01", [])] "01-02" []) "01-01"
      = jsObjectGet [("01-01", [])] "01-01" :=
  (events_file_frame [("01-01", [])] "01-02" []).2 "01-01" (by decide)

theorem contains_eq_false_of_not_mem {a : String} {l : List String} (h : a ∉ l) :
    l.contains a = false := by
  rw [Bool.eq_false_iff]
  intro hcontra
  exact h (List.elem_iff.mp hcontra)

/-- Counterexample to claim C1: in variant G, a record with a valid year and
a non-empty title whose category is outside the vocabulary is dropped by the
validator, not repaired and kept. -/
theorem category_repair_counterexample :
    validateEventsAgg 2025 Lang.en
        [{ year := some 2020, title := "Valid event", category := "Tech" }] = []
    ∧ ((2025 : Int) - 50 ≤ 2020 ∧ (2020 : Int) ≤ 2025)
    ∧ jsTrim "Valid event" ≠ ""
    ∧ "Tech" ∉ CATEGORIES Lang.en := by
  refine ⟨by decide, by decide, by decide, by decide⟩

/-- Claim C1 (amended): in variants P and S the Validator rewrites an
out-of-vocabulary category to the language's fallback term and keeps the
record; in variant G such a record is dropped from the output instead. -/
theorem category_repair_per_variant (currentYear : Int) (lang : Lang) (e : Event)
    (y : Int) (events : List Event)
    (hy : e.year = some y) (h1 : currentYear - 50 ≤ y) (h2 : y ≤ currentYear)
    (ht : jsTrim e.title ≠ "") (hc : e.category ∉ CATEGORIES lang) (he : e ∈ events) :
    ({ e with category := fallbackCategory lang } : Event)
        ∈ validateEvents currentYear lang events
    ∧ e ∉ validateEventsAgg currentYear lang events := by
  constructor
  · rw [validateEvents_eq_filterMap, List.mem_filterMap]
    refine ⟨e, he, ?_⟩
    unfold validateRecord
    rw [hy]
    simp only
    rw [if_neg (by omega)]
    rw [contains_eq_false_of_not_mem hc]
    simp only [Bool.false_eq_true, if_false]
    rw [if_neg ?_]
    rintro (h3 | h3)
    · exact ht (by rw [h3]; decide)
    · exact ht h3
  · intro hmem
    unfold validateEventsAgg at hmem
    rw [List.mem_filter] at hmem
    have hp := hmem.2
    simp only [Bool.and_eq_true] at hp
    rw [contains_eq_false_of_not_mem hc] at hp
    cases hp.2

/-- Witness for claim C1 at a concrete record with category `Tech`. -/
theorem category_repair_per_variant_witness :
    ({ year := some 2020, title := "X", category := "Other" } : Event)
        ∈ validateEvents 2025 Lang.en
            [{ year := some 2020, title := "X", category := "Tech" }]
    ∧ ({ year := some 2020, title := "X", category := "Tech" } : Event)
        ∉ validateEventsAgg 2025 Lang.en
            [{ year := some 2020, title := "X", category := "Tech" }] :=
  category_repair_per_variant 2025 Lang.en
    { year := some 2020, title := "X", category := "Tech" } 2020
    [{ year := some 2020, title := "X", category := "Tech" }]
    rfl (by decide) (by decide) (by decide) (by decide) (by decide)

theorem validateRecord_year_bounds {currentYear : Int} {lang : Lang} {a e : Event}
    (h : validateRecord currentYear lang a = some e) :
    ∃ y : Int, e.year = some y ∧ currentYear - 50 ≤ y ∧ y ≤ currentYear := by
  unfold validateRecord at h
  cases hy : a.year with
  | none => rw [hy] at h; cases h
  | some y =>
    rw [hy] at h
    simp only at h
    by_cases h1 : y < currentYear - 50 ∨ y > currentYear
    · rw [if_pos h1] at h; cases h
    · rw [if_neg h1] at h
      push_neg at h1
      cases h2 : (CATEGORIES lang).contains a.category with
      | true =>
        simp only [h2, if_true] at h
        by_cases h3 : a.title = "" ∨ jsTrim a.title = ""
        · rw [if_pos h3] at h; cases h
        · rw [if_neg h3] at h
          refine ⟨y, ?_, h1.1, h1.2⟩
          rw [← Option.some.inj h, hy]
      | false =>
        simp only [h2, Bool.false_eq_true, if_false] at h
        by_cases h3 : ({ a with category := fallbackCategory lang } : Event).title = ""
            ∨ jsTrim ({ a with category := fallbackCategory lang } : Event).title = ""
        · rw [if_pos h3] at h; cases h
        · rw [if_neg h3] at h
          refine ⟨y, ?_, h1.1, h1.2⟩
          rw [← Option.some.inj h]

/-- Counterexample to claim C2: at current year 2025, variant G's validator
keeps a record whose year 1972 lies outside `[currentYear-50, currentYear]`
(its lower bound is the fixed 1970, not `currentYear - 50`). -/
theorem year_range_counterexample :
    validateEventsAgg 2025 Lang.en
        [{ year := some 1972, title := "X", category := "Politics" }]
      = [{ year := some 1972, title := "X", category := "Politics" }]
    ∧ (1972 : Int) < 2025 - 50 := by
  refine ⟨by decide, by decide⟩

/-- Claim C2 (amended): variants P and S only ever output records whose year
is a number inside `[currentYear-50, currentYear]`; variant G instead
enforces the fixed range `[1970, currentYear]`, so a record older than
`currentYear - 50` but at least 1970 survives there. `NaN` years are dropped
by every variant. -/
theorem year_filter_per_variant (currentYear : Int) (lang : Lang) (events : List Event) :
    (∀ e ∈ validateEvents currentYear lang events,
       ∃ y : Int, e.year = some y ∧ currentYear - 50 ≤ y ∧ y ≤ currentYear)
    ∧ (∀ e ∈ validateEventsAgg currentYear lang events,
       ∃ y : Int, e.year = some y ∧ 1970 ≤ y ∧ y ≤ currentYear) := by
  constructor
  · intro e hmem
    rw [validateEvents_eq_filterMap, List.mem_filterMap] at hmem
    obtain ⟨a, _, ha⟩ := hmem
    exact validateRecord_year_bounds ha
  · intro e hmem
    unfold validateEventsAgg at hmem
    rw [List.mem_filter] at hmem
    have hp := hmem.2
    simp only [Bool.and_eq_true] at hp
    cases hy : e.year with
    | none => rw [hy] at hp; simp at hp
    | some y =>
      rw [hy] at hp
      simp only [Bool.and_eq_true, decide_eq_true_eq] at hp
      exact ⟨y, rfl, hp.1.1, hp.1.2⟩

/-- Witness for claim C2 at a concrete in-range record. -/
theorem year_filter_per_variant_witness :
    ∃ y : Int,
      ({ year := some 2020, title := "A", category := "Politics" } : Event).year = some y
      ∧ (2025 : Int) - 50 ≤ y ∧ y ≤ 2025 :=
  (year_filter_per_variant 2025 Lang.en
      [{ year := some 2020, title := "A", category := "Politics" }]).1
    { year := some 2020, title := "A", category := "Politics" } (by decide)

theorem parseLine_blank {line : String} (h : jsTrim line = "") : parseLine line = none := by
  unfold parseLine
  simp [h]

theorem parseLine_malformed {line : String}
    (h : (jsSplit (jsTrim line) '|').length ≠ 3) : parseLine line = none := by
  unfold parseLine
  by_cases hb : jsTrim line = ""
  · simp [hb]
  · rw [if_neg hb]
    split
    · rename_i p0 p1 p2 heq
      rw [heq] at h
      simp at h
    · rfl

/-- Counterexample to claim C3: variant G's parser keeps a non-blank line
that splits on `'|'` into four fields, truncating it to the first three,
instead of skipping it. -/
theorem parser_skip_counterexample :
    parseEventsAgg "2020|Event A|Tech|extra"
        = [{ year := some 2020, title := "Event A", category := "Tech" }]
    ∧ (jsSplit (jsTrim "2020|Event A|Tech|extra") '|').length ≠ 3 := by
  refine ⟨by decide, by decide⟩

/-- Claim C3 (amended): both parsers discard blank lines, skip the malformed
`GARBAGE` line without aborting and produce the two example records in input
order; in variants P and S every non-blank line that does not split into
exactly three fields is skipped, while variant G keeps the first three
trimmed fields whenever all three are non-empty (extra fields are truncated,
not a reason to skip). -/
theorem parser_skip_per_variant :
    (∀ s : String, parseEvents s = (jsSplit s '\n').filterMap parseLine)
    ∧ (∀ line : String, jsTrim line = "" → parseLine line = none)
    ∧ (∀ line : String, (jsSplit (jsTrim line) '|').length ≠ 3 → parseLine line = none)
    ∧ parseEvents "2020|Event A|Tech\nGARBAGE\n2019|Event B|Sports"
        = [{ year := some 2020, title := "Event A", category := "Tech" },
           { year := some 2019, title := "Event B", category := "Sports" }]
    ∧ parseEventsAgg "2020|Event A|Tech\nGARBAGE\n2019|Event B|Sports"
        = [{ year := some 2020, title := "Event A", category := "Tech" },
           { year := some 2019, title := "Event B", category := "Sports" }] := by
  refine ⟨fun s => ?_, fun line h => parseLine_blank h,
    fun line h => parseLine_malformed h, by decide, by decide⟩
  unfold parseEvents
  rw [foldl_push_filterMap]
  simp

/-- Witness for claim C3: a whitespace-only line and a delimiter-free line
are both skipped by the variant P/S parser. -/
theorem parser_skip_per_variant_witness :
    parseLine "   " = none ∧ parseLine "GARBAGE" = none :=
  ⟨parser_skip_per_variant.2.1 "   " (by decide),
   parser_skip_per_variant.2.2.1 "GARBAGE" (by decide)⟩

theorem genLoop_all_err {oracle : Nat → Nat → AttemptOutcome}
    (hor : ∀ i k, oracle i k = AttemptOutcome.err) (numKeys : Nat) :
    ∀ (fuel retries keyIdx : Nat), 0 < fuel →
      genLoop oracle numKeys retries keyIdx fuel = Except.error (retries + fuel)
  | 0, _, _, hf => absurd hf (by simp)
  | fuel + 1, retries, keyIdx, _ => by
    unfold genLoop
    rw [hor retries keyIdx]
    by_cases hf : fuel = 0
    · subst hf
      simp
    · rw [if_neg hf]
      rw [genLoop_all_err hor numKeys fuel (retries + 1) ((keyIdx + 1) % numKeys)
            (Nat.pos_of_ne_zero hf)]
      rw [Nat.add_assoc, Nat.add_comm 1 fuel]

theorem genLoop_first_ok {oracle : Nat → Nat → AttemptOutcome} {j : Nat} {t : String}
    (hfail : ∀ i k, i < j → oracle i k = AttemptOutcome.err)
    (hok : ∀ k, oracle j k = AttemptOutcome.ok t)
    {numKeys : Nat} (hn : 0 < numKeys) :
    ∀ (fuel retries keyIdx : Nat), retries ≤ j → j - retries < fuel → keyIdx < numKeys →
      genLoop oracle numKeys retries keyIdx fuel =
        Except.ok (t, j + 1, (keyIdx + (j - retries)) % numKeys)
  | 0, _, _, _, hf, _ => absurd hf (by simp)
  | fuel + 1, retries, keyIdx, hr, hf, hk => by
    unfold genLoop
    by_cases hrj : retries = j
    · subst hrj
      rw [hok keyIdx]
      simp [Nat.mod_eq_of_lt hk]
    · have hrlt : retries < j := Nat.lt_of_le_of_ne hr hrj
      rw [hfail retries keyIdx hrlt]
      have hfuel : fuel ≠ 0 := by omega
      rw [if_neg hfuel]
      rw [genLoop_first_ok hfail hok hn fuel (retries + 1) ((keyIdx + 1) % numKeys)
            (by omega) (by omega) (Nat.mod_lt _ hn)]
      rw [Nat.mod_add_mod]
      have heq : keyIdx + 1 + (j - (retries + 1)) = keyIdx + (j - retries) := by omega
      rw [heq]

theorem genLoop_ok_key_lt {oracle : Nat → Nat → AttemptOutcome} {numKeys : Nat} :
    ∀ (fuel retries keyIdx : Nat) (t : String) (a kf : Nat), keyIdx < numKeys →
      genLoop oracle numKeys retries keyIdx fuel = Except.ok (t, a, kf) → kf < numKeys
  | 0, _, _, _, _, _, _, h => by cases h
  | fuel + 1, retries, keyIdx, t, a, kf, hk, h => by
    unfold genLoop at h
    cases horc : oracle retries keyIdx with
    | ok s =>
      rw [horc] at h
      cases h
      exact hk
    | err =>
      rw [horc] at h
      by_cases hf : fuel = 0
      · rw [if_pos hf] at h; cases h
      · rw [if_neg hf] at h
        exact genLoop_ok_key_lt fuel (retries + 1) ((keyIdx + 1) % numKeys) t a kf
          (Nat.mod_lt _ (Nat.lt_of_le_of_lt (Nat.zero_le _) hk)) h

/-- Claim C4: with `numKeys` credentials and a budget of `numKeys * k` total
attempts for a language, if every attempt fails the orchestrator makes
exactly `numKeys * k` attempts and then raises the exhaustion error, which
aborts the whole day's generation; if the first success is attempt `j`, the
raw text is returned after exactly `j + 1` attempts with no further attempts
for that language. -/
theorem retry_budget_exhaustion (numKeys k keyIdx j : Nat)
    (oracle : Nat → Nat → AttemptOutcome) (t : String)
    (hn : 0 < numKeys) (hk : keyIdx < numKeys) :
    ((∀ i ki, oracle i ki = AttemptOutcome.err) → 0 < numKeys * k →
       generateEventsForLang oracle numKeys (numKeys * k) keyIdx
         = Except.error (numKeys * k))
    ∧ ((∀ i ki, i < j → oracle i ki = AttemptOutcome.err) →
       (∀ ki, oracle j ki = AttemptOutcome.ok t) → j < numKeys * k →
       generateEventsForLang oracle numKeys (numKeys * k) keyIdx
         = Except.ok (t, j + 1, (keyIdx + j) % numKeys))
    ∧ (∀ (oracles : Lang → Nat → Nat → AttemptOutcome) (lang : Lang) (rest : List Lang),
       (∀ i ki, oracles lang i ki = AttemptOutcome.err) → 0 < numKeys * k →
       generateEventsWithAI oracles numKeys (numKeys * k) (lang :: rest) keyIdx
         = Except.error (numKeys * k)) := by
  refine ⟨fun hor hpos => ?_, fun hfail hok hj => ?_, fun oracles lang rest hor hpos => ?_⟩
  · unfold generateEventsForLang
    rw [genLoop_all_err hor numKeys (numKeys * k) 0 keyIdx hpos]
    simp
  · unfold generateEventsForLang
    rw [genLoop_first_ok hfail hok hn (numKeys * k) 0 keyIdx (Nat.zero_le _)
          (by omega) hk]
    simp
  · unfold generateEventsWithAI generateEventsForLang
    rw [genLoop_all_err (hor) numKeys (numKeys * k) 0 keyIdx hpos]
    simp

/-- Witness for claim C4: two credentials, budget `2 * 2`, every attempt
failing: exactly four attempts then the exhaustion error. -/
theorem retry_budget_exhaustion_witness :
    generateEventsForLang (fun _ _ => AttemptOutcome.err) 2 (2 * 2) 0
      = Except.error (2 * 2) :=
  (retry_budget_exhaustion 2 2 0 0 (fun _ _ => AttemptOutcome.err) ""
      (by decide) (by decide)).1 (fun _ _ => rfl) (by decide)

/-- Claim C10: the rotation cursor stays inside `[0, numKeys)`; a successful
attempt leaves it where it was (it advances only on failures, once per
failed attempt); and it is not reset between languages — the next language
begins from the final cursor of the previous one. -/
theorem rotation_cursor_invariant (oracle : Lang → Nat → Nat → AttemptOutcome)
    (numKeys maxRetries keyIdx : Nat) (hn : 0 < numKeys) (hk : keyIdx < numKeys) :
    (∀ (lang : Lang) (t : String) (a kf : Nat),
       generateEventsForLang (oracle lang) numKeys maxRetries keyIdx
           = Except.ok (t, a, kf) → kf < numKeys)
    ∧ (∀ (lang : Lang) (t : String), 0 < maxRetries →
       oracle lang 0 keyIdx = AttemptOutcome.ok t →
       generateEventsForLang (oracle lang) numKeys maxRetries keyIdx
         = Except.ok (t, 1, keyIdx))
    ∧ (∀ (lang : Lang) (t : String) (j : Nat),
       (∀ i ki, i < j → oracle lang i ki = AttemptOutcome.err) →
       (∀ ki, oracle lang j ki = AttemptOutcome.ok t) → j < maxRetries →
       generateEventsForLang (oracle lang) numKeys maxRetries keyIdx
         = Except.ok (t, j + 1, (keyIdx + j) % numKeys))
    ∧ (∀ (lang : Lang) (rest : List Lang) (t : String) (a kf : Nat)
         (results : List (Lang × String)) (kf' : Nat),
       generateEventsForLang (oracle lang) numKeys maxRetries keyIdx
           = Except.ok (t, a, kf) →
       generateEventsWithAI oracle numKeys maxRetries rest kf
           = Except.ok (results, kf') →
       generateEventsWithAI oracle numKeys maxRetries (lang :: rest) keyIdx
         = Except.ok ((lang, t) :: results, kf')) := by
  refine ⟨fun lang t a kf h => genLoop_ok_key_lt maxRetries 0 keyIdx t a kf hk h,
    fun lang t hm hok => ?_, fun lang t j hfail hok hj => ?_,
    fun lang rest t a kf results kf' h1 h2 => ?_⟩
  · unfold generateEventsForLang
    cases hmr : maxRetries with
    | zero => omega
    | succ m =>
      unfold genLoop
      rw [hok]
  · unfold generateEventsForLang
    rw [genLoop_first_ok hfail hok hn maxRetries 0 keyIdx (Nat.zero_le _) (by omega) hk]
    simp
  · unfold generateEventsWithAI
    rw [h1]
    dsimp only
    rw [h2]

/-- Witness for claim C10: a first-attempt success leaves the cursor at its
starting position. -/
theorem rotation_cursor_invariant_witness :
    generateEventsForLang ((fun _ _ _ => AttemptOutcome.ok "T") Lang.zh) 2 4 0
      = Except.ok ("T", 1, 0) :=
  (rotation_cursor_invariant (fun _ _ _ => AttemptOutcome.ok "T") 2 4 0
      (by decide) (by decide)).2.1 Lang.zh "T" (by decide) rfl

end OnThisDay
